import Mathlib

/-!
Verification of the Seasonality Publish Recommender service
(`src/article-function/main.py`), a single Flask endpoint that validates a
request, fetches two BigQuery reference datasets, builds a prompt, invokes a
generative model, and normalizes the model text into a JSON result.

Python strings are modelled as `List Char`.  JSON values are modelled by
`JVal`; JSON numerals are restricted to integers (the service's own examples
and control flow never depend on floating point, which is out of scope of
this embedding).  External effects (the two BigQuery queries and the model
invocation) are parameters of the handler: each query result is an
`Except` value (an exception or a row list) and the model is a function from
the prompt to an `Except` value, mirroring the fact that in the source any
raised exception falls through to the generic `except Exception` handler.
-/

namespace SeasonRec

/-- JSON values as produced by `json.loads` (numerals restricted to
integers; see the file comment). -/
inductive JVal where
  | null : JVal
  | bool : Bool → JVal
  | num : Int → JVal
  | str : List Char → JVal
  | arr : List JVal → JVal
  | obj : List (List Char × JVal) → JVal

/-- Shorthand: a Lean string literal as a Python string (`List Char`). -/
def jstr (s : String) : List Char := s.toList

/-- The backtick character, written by code point to keep source plain. -/
def btick : Char := Char.ofNat 96

/-- The opening-brace character `\x7b`. -/
def obrace : Char := Char.ofNat 123

/-- The closing-brace character `\x7d`. -/
def cbrace : Char := Char.ofNat 125

/-- The markdown code-fence marker, three backticks. -/
def fence : List Char := [btick, btick, btick]

/-- Python `str.isspace` characters relevant to `str.strip()`:
space, tab, newline, carriage return, form feed, vertical tab. -/
def isPySpace (c : Char) : Bool :=
  c = ' ' || c = '\t' || c = '\n' || c = '\r' || c = '\x0b' || c = '\x0c'

/-- Python `str.strip()`: drop leading and trailing whitespace. -/
def pstrip (s : List Char) : List Char :=
  ((s.dropWhile isPySpace).reverse.dropWhile isPySpace).reverse

/-- The characters of `s` before its first occurrence of the code fence
marker; the whole of `s` when no fence occurs.  This is
`s.split('```')[0]`, used to embed the source's
`result_text.split('```')[1]` applied after the leading fence is dropped. -/
def takeUntilFence : List Char → List Char
  | [] => []
  | c :: cs => if fence.isPrefixOf (c :: cs) then [] else c :: takeUntilFence cs

/-- Response-text cleaning from `main.py` lines 133–142: trim, strip a
leading markdown code fence with optional `json` language tag (taking the
segment up to the next fence, as `split('```')[1]` does), and strip a
trailing fence. -/
def cleanModelText (raw : List Char) : List Char :=
  let t0 := pstrip raw
  let t1 :=
    if fence.isPrefixOf t0 then
      let seg := takeUntilFence (t0.drop 3)
      let seg := if (jstr "json").isPrefixOf seg then seg.drop 4 else seg
      pstrip seg
    else t0
  if fence.isSuffixOf t1 then pstrip (t1.take (t1.length - 3)) else t1

/-- JSON extraction from `main.py` lines 145–148: when the text contains
both braces, keep the slice from the first `\x7b` to the last `\x7d`
inclusive (Python `s[start:end]` slice semantics). -/
def extractJson (t : List Char) : List Char :=
  if obrace ∈ t ∧ cbrace ∈ t then
    let s := t.findIdx (fun c => c = obrace)
    let e := t.length - 1 - t.reverse.findIdx (fun c => c = cbrace) + 1
    (t.drop s).take (e - s)
  else t

/-! ## `json.loads`

A fuel-indexed recursive-descent parser for strict JSON, embedding Python's
`json.loads`: optional whitespace around a single value, strings with the
standard escapes (including `\uXXXX`), `true`/`false`/`null`, arrays and
objects.  Numerals are restricted to integers: a fraction or exponent makes
the parse fail in this model (no claim exercises floating point).  Trailing
input after the value is a failure ("Extra data"), as in Python. -/

/-- JSON whitespace as accepted by `json.loads` (space, tab, newline, CR). -/
def jsonWs (c : Char) : Bool :=
  c = ' ' || c = '\t' || c = '\n' || c = '\r'

/-- Skip JSON whitespace. -/
def skipWs (s : List Char) : List Char := s.dropWhile jsonWs

/-- Value of a hex digit, if any. -/
def hexVal (c : Char) : Option Nat :=
  if '0' ≤ c ∧ c ≤ '9' then some (c.toNat - 48)
  else if 'a' ≤ c ∧ c ≤ 'f' then some (c.toNat - 87)
  else if 'A' ≤ c ∧ c ≤ 'F' then some (c.toNat - 55)
  else none

/-- Parse the body of a JSON string after its opening quote, returning the
decoded characters and the input after the closing quote.  Strict mode:
raw control characters are rejected, and only the JSON escapes are valid. -/
def parseStrBody : Nat → List Char → Option (List Char × List Char)
  | 0, _ => none
  | _, [] => none
  | fuel + 1, c :: cs =>
    if c = '"' then some ([], cs)
    else if c.toNat < 32 then none
    else if c = '\\' then
      match cs with
      | [] => none
      | e :: cs2 =>
        let cont (d : Char) (rest : List Char) : Option (List Char × List Char) :=
          match parseStrBody fuel rest with
          | some (body, r) => some (d :: body, r)
          | none => none
        if e = '"' then cont '"' cs2
        else if e = '\\' then cont '\\' cs2
        else if e = '/' then cont '/' cs2
        else if e = 'b' then cont '\x08' cs2
        else if e = 'f' then cont '\x0c' cs2
        else if e = 'n' then cont '\n' cs2
        else if e = 'r' then cont '\r' cs2
        else if e = 't' then cont '\t' cs2
        else if e = 'u' then
          match cs2 with
          | h1 :: h2 :: h3 :: h4 :: cs3 =>
            match hexVal h1, hexVal h2, hexVal h3, hexVal h4 with
            | some n1, some n2, some n3, some n4 =>
              cont (Char.ofNat (((n1 * 16 + n2) * 16 + n3) * 16 + n4)) cs3
            | _, _, _, _ => none
          | _ => none
        else none
    else
      match parseStrBody fuel cs with
      | some (body, r) => some (c :: body, r)
      | none => none

/-- Decimal value of a digit list. -/
def digitsVal (ds : List Char) : Nat :=
  ds.foldl (fun a c => 10 * a + (c.toNat - 48)) 0

/-- Reject a fraction or exponent after an integer part (floating point is
out of scope of this embedding; see the file comment). -/
def afterIntPart (n : Nat) (r : List Char) : Option (Nat × List Char) :=
  match r with
  | '.' :: _ => none
  | 'e' :: _ => none
  | 'E' :: _ => none
  | _ => some (n, r)

/-- Parse an unsigned JSON integer: `0`, or a nonzero digit followed by
digits (leading zeros are invalid in JSON). -/
def parseUNum (s : List Char) : Option (Nat × List Char) :=
  match s with
  | [] => none
  | '0' :: rest =>
    if (rest.head?.elim false Char.isDigit) then none else afterIntPart 0 rest
  | c :: _ =>
    if c.isDigit then
      let ds := s.takeWhile Char.isDigit
      afterIntPart (digitsVal ds) (s.dropWhile Char.isDigit)
    else none

/-- Parse a JSON integer numeral with optional leading minus. -/
def parseNum (s : List Char) : Option (Int × List Char) :=
  match s with
  | '-' :: rest =>
    match parseUNum rest with
    | some (n, r) => some (-(n : Int), r)
    | none => none
  | _ =>
    match parseUNum s with
    | some (n, r) => some ((n : Int), r)
    | none => none

/-- Parse the items of a non-empty JSON array given a parser `p` for one
value; `p` is expected to skip leading whitespace itself. -/
def parseArrRest (p : List Char → Option (JVal × List Char)) :
    Nat → List Char → Option (List JVal × List Char)
  | 0, _ => none
  | fuel + 1, s =>
    match p s with
    | some (v, rest) =>
      match skipWs rest with
      | ',' :: rest2 =>
        match parseArrRest p fuel rest2 with
        | some (vs, r) => some (v :: vs, r)
        | none => none
      | ']' :: rest2 => some ([v], rest2)
      | _ => none
    | none => none

/-- Parse the members of a non-empty JSON object given a parser `p` for one
value. -/
def parseObjRest (p : List Char → Option (JVal × List Char)) :
    Nat → List Char → Option (List (List Char × JVal) × List Char)
  | 0, _ => none
  | fuel + 1, s =>
    match skipWs s with
    | [] => none
    | c :: cs =>
      if c = '"' then
        match parseStrBody (cs.length + 1) cs with
        | some (key, r1) =>
          match skipWs r1 with
          | ':' :: r2 =>
            match p r2 with
            | some (v, r3) =>
              match skipWs r3 with
              | ',' :: r4 =>
                match parseObjRest p fuel r4 with
                | some (fs, r5) => some ((key, v) :: fs, r5)
                | none => none
              | d :: r4 => if d = cbrace then some ([(key, v)], r4) else none
              | [] => none
            | none => none
          | _ => none
        | none => none
      else none

/-- Parse one JSON value (after skipping leading whitespace), returning the
value and the remaining input. -/
def parseV : Nat → List Char → Option (JVal × List Char)
  | 0, _ => none
  | fuel + 1, s =>
    match skipWs s with
    | [] => none
    | c :: cs =>
      if c = '"' then
        match parseStrBody (cs.length + 1) cs with
        | some (body, r) => some (JVal.str body, r)
        | none => none
      else if c = obrace then
        match skipWs cs with
        | [] => none
        | d :: ds =>
          if d = cbrace then some (JVal.obj [], ds)
          else
            match parseObjRest (parseV fuel) (ds.length + 2) (d :: ds) with
            | some (fs, r) => some (JVal.obj fs, r)
            | none => none
      else if c = '[' then
        match skipWs cs with
        | ']' :: ds => some (JVal.arr [], ds)
        | ds =>
          match parseArrRest (parseV fuel) (ds.length + 1) ds with
          | some (vs, r) => some (JVal.arr vs, r)
          | none => none
      else if c = 't' then
        match cs with
        | 'r' :: 'u' :: 'e' :: r => some (JVal.bool true, r)
        | _ => none
      else if c = 'f' then
        match cs with
        | 'a' :: 'l' :: 's' :: 'e' :: r => some (JVal.bool false, r)
        | _ => none
      else if c = 'n' then
        match cs with
        | 'u' :: 'l' :: 'l' :: r => some (JVal.null, r)
        | _ => none
      else
        match parseNum (c :: cs) with
        | some (n, r) => some (JVal.num n, r)
        | none => none

/-- `json.loads`: parse exactly one JSON value, allowing surrounding
whitespace; anything left over is "Extra data" and fails. -/
def loads (s : List Char) : Option JVal :=
  match parseV (s.length + 1) s with
  | some (v, rest) => if skipWs rest = [] then some v else none
  | none => none

/-! ## Python dict / truthiness helpers -/

/-- `dict.get` on a parsed JSON object.  Duplicate keys behave as in a
Python dict built by `json.loads`: the last occurrence wins. -/
def objGet (fs : List (List Char × JVal)) (k : List Char) : Option JVal :=
  match fs.reverse.find? (fun kv => decide (kv.1 = k)) with
  | some kv => some kv.2
  | none => none

/-- Python truthiness of a parsed JSON value (`None`, `False`, `0`, `""`,
`[]` and `\x7b\x7d` are falsy). -/
def truthy : JVal → Bool
  | .null => false
  | .bool b => b
  | .num n => decide (n ≠ 0)
  | .str s => !s.isEmpty
  | .arr xs => !xs.isEmpty
  | .obj fs => !fs.isEmpty

/-- The apostrophe character `\x27`. -/
def squote : Char := Char.ofNat 39

/-- Decimal rendering of an integer. -/
def intStr (n : Int) : List Char := (toString n).toList

/-- A hex digit character (lowercase). -/
def hexDigit (n : Nat) : Char :=
  if n < 10 then Char.ofNat (48 + n) else Char.ofNat (87 + n)

/-- Four lowercase hex digits of `n` (code points beyond `0xFFFF` are not
distinguished; no claim exercises them). -/
def toHex4 (n : Nat) : List Char :=
  [hexDigit (n / 4096 % 16), hexDigit (n / 256 % 16),
   hexDigit (n / 16 % 16), hexDigit (n % 16)]

/-- Python `repr` escaping of one character inside a single-quoted string
literal (printable characters kept verbatim). -/
def pyReprEscChar (c : Char) : List Char :=
  if c = '\\' then jstr "\\\\"
  else if c = squote then ['\\', squote]
  else if c = '\n' then jstr "\\n"
  else if c = '\r' then jstr "\\r"
  else if c = '\t' then jstr "\\t"
  else if c.toNat < 32 ∨ c.toNat = 127 then
    ['\\', 'x', hexDigit (c.toNat / 16), hexDigit (c.toNat % 16)]
  else [c]

/-- Comma-and-space join. -/
def commaJoin : List (List Char) → List Char
  | [] => []
  | [x] => x
  | x :: y :: xs => x ++ jstr ", " ++ commaJoin (y :: xs)

mutual

/-- Python `repr` of a parsed JSON value (strings single-quoted; Python's
switch to double quotes for strings containing an apostrophe is not
modelled — no claim depends on it). -/
def pyRepr : JVal → List Char
  | .null => jstr "None"
  | .bool true => jstr "True"
  | .bool false => jstr "False"
  | .num n => intStr n
  | .str s => squote :: (s.map pyReprEscChar).flatten ++ [squote]
  | .arr xs => '[' :: commaJoin (pyReprList xs) ++ [']']
  | .obj fs => obrace :: commaJoin (pyReprFields fs) ++ [cbrace]

/-- `repr` of the elements of a list value. -/
def pyReprList : List JVal → List (List Char)
  | [] => []
  | x :: xs => pyRepr x :: pyReprList xs

/-- `repr` of the members of a dict value. -/
def pyReprFields : List (List Char × JVal) → List (List Char)
  | [] => []
  | (k, v) :: fs =>
    (squote :: (k.map pyReprEscChar).flatten ++ [squote] ++ jstr ": " ++ pyRepr v)
      :: pyReprFields fs

end

/-- Python `str()` of a parsed JSON value, as interpolated by an f-string:
a string is itself, everything else renders as its `repr`. -/
def pyStr : JVal → List Char
  | .str s => s
  | v => pyRepr v

/-- Python `x[:1000]` on a parsed JSON value: slices strings and lists,
raises `TypeError` otherwise (surfacing in the generic exception handler). -/
def pySlice1000 : JVal → Except (List Char) JVal
  | .str s => .ok (.str (s.take 1000))
  | .arr xs => .ok (.arr (xs.take 1000))
  | .null => .error (jstr "\x27NoneType\x27 object is not subscriptable")
  | .bool _ => .error (jstr "\x27bool\x27 object is not subscriptable")
  | .num _ => .error (jstr "\x27int\x27 object is not subscriptable")
  | .obj _ => .error (jstr "unhashable type: \x27slice\x27")

/-- The `AttributeError` message raised by `.get` on a truthy non-dict
request body. -/
def attrGetErr : JVal → List Char
  | .arr _ => jstr "\x27list\x27 object has no attribute \x27get\x27"
  | .str _ => jstr "\x27str\x27 object has no attribute \x27get\x27"
  | .num _ => jstr "\x27int\x27 object has no attribute \x27get\x27"
  | .bool _ => jstr "\x27bool\x27 object has no attribute \x27get\x27"
  | .null => jstr "\x27NoneType\x27 object has no attribute \x27get\x27"
  | .obj _ => []

/-! ## `json.dumps(..., default=str, indent=2)` -/

/-- JSON escaping of one character under `ensure_ascii=True` (code points
beyond `0xFFFF` are rendered without surrogate pairs; no claim exercises
them). -/
def jsonEscChar (c : Char) : List Char :=
  if c = '"' then jstr "\\\""
  else if c = '\\' then jstr "\\\\"
  else if c = '\n' then jstr "\\n"
  else if c = '\t' then jstr "\\t"
  else if c = '\r' then jstr "\\r"
  else if c.toNat = 8 then jstr "\\b"
  else if c.toNat = 12 then jstr "\\f"
  else if c.toNat < 32 ∨ 128 ≤ c.toNat then '\\' :: 'u' :: toHex4 c.toNat
  else [c]

/-- A JSON string literal with escaping. -/
def jsonStrLit (s : List Char) : List Char :=
  '"' :: (s.map jsonEscChar).flatten ++ ['"']

/-- Indentation of `level * 2` spaces, as produced by `indent=2`. -/
def indentSp (level : Nat) : List Char := List.replicate (level * 2) ' '

mutual

/-- `json.dumps` with `indent=2` of a value nested at `level`. -/
def dumpJ (level : Nat) : JVal → List Char
  | .null => jstr "null"
  | .bool true => jstr "true"
  | .bool false => jstr "false"
  | .num n => intStr n
  | .str s => jsonStrLit s
  | .arr [] => jstr "[]"
  | .arr (x :: xs) =>
    '[' :: '\n' :: dumpArrItems level (x :: xs) ++ '\n' :: indentSp level ++ [']']
  | .obj [] => [obrace, cbrace]
  | .obj (f :: fs) =>
    obrace :: '\n' :: dumpObjItems level (f :: fs) ++ '\n' :: indentSp level ++ [cbrace]

/-- The comma-newline-joined, indented items of a non-empty array. -/
def dumpArrItems (level : Nat) : List JVal → List Char
  | [] => []
  | [x] => indentSp (level + 1) ++ dumpJ (level + 1) x
  | x :: y :: xs =>
    indentSp (level + 1) ++ dumpJ (level + 1) x ++ ',' :: '\n' :: dumpArrItems level (y :: xs)

/-- The comma-newline-joined, indented members of a non-empty object. -/
def dumpObjItems (level : Nat) : List (List Char × JVal) → List Char
  | [] => []
  | [(k, v)] => indentSp (level + 1) ++ jsonStrLit k ++ ':' :: ' ' :: dumpJ (level + 1) v
  | (k, v) :: f :: fs =>
    indentSp (level + 1) ++ jsonStrLit k ++ ':' :: ' ' :: dumpJ (level + 1) v
      ++ ',' :: '\n' :: dumpObjItems level (f :: fs)

end

/-- A BigQuery result row, an opaque key/value mapping (`dict(row)` in the
source; values of non-JSON types are covered by `default=str` and modelled
as their string form). -/
abbrev Row := List (List Char × JVal)

/-- `json.dumps(rows, default=str, indent=2)` for a list of row dicts. -/
def dumpsRows (rows : List Row) : List Char :=
  dumpJ 0 (JVal.arr (rows.map JVal.obj))

/-! ## Fixed strings from `main.py` -/

/-- Validation message for an absent or falsy request body (line 53). -/
def msgNoJson : List Char := jstr "No JSON data provided"

/-- Validation message for missing/empty title or content (line 63). -/
def msgTitleContent : List Char := jstr "Title and content are required"

/-- The hardcoded fallback `description` (line 159). -/
def fallbackDesc : List Char := jstr "<p><strong>General Content</strong> shows consistent engagement. Based on historical patterns:</p><div style=\x27margin-top:20px; padding:15px; background:#fff; border:1px solid #ddd;\x27><p><strong>Option 1</strong> – <em>Monday: 9th December 2025</em> @ <strong>9:00 AM</strong><br>Relevancy Score: <strong>85%</strong></p><p style=\x27margin-top:15px;\x27><strong>Option 2</strong> – <em>Thursday: 12th December 2025</em> @ <strong>2:00 PM</strong><br>Relevancy Score: <strong>80%</strong></p></div>"

/-- The hardcoded fallback result substituted on parse failure
(lines 158–161): a fixed description and three fixed insight strings. -/
def fallbackResult : JVal :=
  .obj [(jstr "description", .str fallbackDesc),
        (jstr "insights", .arr
          [.str (jstr "Historical patterns analyzed"),
           .str (jstr "Weekday mornings recommended"),
           .str (jstr "Thursday afternoons show engagement")])]

/-- Prompt template up to the title interpolation (lines 84–88). -/
def promptSeg1 : List Char := jstr "\nYou are an expert publishing strategist analyzing article engagement data.\n\nARTICLE TO ANALYZE:\nTitle: "

/-- Template between title and truncated content (line 89). -/
def promptSeg2 : List Char := jstr "\nContent: "

/-- Template between content and region (line 90). -/
def promptSeg3 : List Char := jstr "\nTarget Region: "

/-- Template between region and the first dataset dump (lines 92–93). -/
def promptSeg4 : List Char := jstr "\n\nDATASET 1 - Subscription Behaviour (user engagement history):\n"

/-- Template between the two dataset dumps (lines 95–96). -/
def promptSeg5 : List Char := jstr "\n\nDATASET 2 - Seasonality Reference (topic timing performance):\n"

/-- Template tail: the task description and the exact required output
schema (lines 98–115; the doubled braces of the f-string render as single
braces). -/
def promptSeg6 : List Char := jstr "\n\nYOUR TASK:\nAnalyze the article topic and determine the BEST day + time to publish based on:\n1. Historical engagement patterns from the datasets\n2. Seasonality trends for similar content\n3. Day-of-week and time-of-day performance\n\nCRITICAL: Respond with ONLY valid JSON in this EXACT format (no markdown, no code blocks):\n\n\x7b\n    \"description\": \"<p><strong>[CATEGORY]</strong> shows the highest engagement on <strong>[DAY]</strong>. Additionally, [context from dataset]. Based on these trends, the following publishing times carry the highest relevancy:</p><div style=\x27margin-top:20px; padding:15px; background:#fff; border:1px solid #ddd;\x27><p><strong>Option 1</strong> – <em>[Day: Date]</em> @ <strong>[Time]</strong><br>Relevancy Score: <strong>[X]%</strong></p><p style=\x27margin-top:15px;\x27><strong>Option 2</strong> – <em>[Day: Date]</em> @ <strong>[Time]</strong><br>Relevancy Score: <strong>[Y]%</strong></p></div>\",\n    \"insights\": [\n        \"Data-driven insight 1\",\n        \"Data-driven insight 2\",\n    ]\n\x7d\nEnsure you keep the data as consice as possible. each data-driven insight should contain max 20 words. The description should contain max 100 words.\nRespond with ONLY the JSON object. No other text.\n"

/-! ## HTTP responses and the request handler -/

/-- A response body: empty (the preflight return) or a `jsonify` payload. -/
inductive RespBody where
  | empty : RespBody
  | json : JVal → RespBody

/-- An HTTP response as the handler returns it: status code, body, and the
headers the handler attaches explicitly (empty for the `jsonify(...), 400`
returns, which attach none beyond the framework defaults). -/
structure HttpResp where
  status : Nat
  body : RespBody
  headers : List (List Char × List Char)

/-- CORS preflight headers (lines 34–39). -/
def corsPreflightHeaders : List (List Char × List Char) :=
  [(jstr "Access-Control-Allow-Origin", jstr "*"),
   (jstr "Access-Control-Allow-Methods", jstr "POST, OPTIONS"),
   (jstr "Access-Control-Allow-Headers", jstr "Content-Type"),
   (jstr "Access-Control-Max-Age", jstr "3600")]

/-- Headers attached to the success and exception responses (lines 42–45). -/
def postHeaders : List (List Char × List Char) :=
  [(jstr "Access-Control-Allow-Origin", jstr "*"),
   (jstr "Content-Type", jstr "application/json")]

/-- An error body `\x7bstatus: "error", message: msg\x7d`. -/
def errBody (msg : List Char) : JVal :=
  .obj [(jstr "status", .str (jstr "error")), (jstr "message", .str msg)]

/-- A success body `\x7bstatus: "success", data: d\x7d`. -/
def successBody (d : JVal) : JVal :=
  .obj [(jstr "status", .str (jstr "success")), (jstr "data", d)]

/-- The HTTP methods the `/recommend` route accepts. -/
inductive Method where
  | post : Method
  | options : Method

/-- Prompt construction (lines 84–115): the fixed template filled with the
title, the content truncated to its first 1000 characters, the region, and
the two dataset serializations truncated to their first 20 rows.  Slicing a
non-sliceable content value raises, surfacing as a `TypeError`. -/
def buildPrompt (title content region : JVal) (subs season : List Row) :
    Except (List Char) (List Char) :=
  match pySlice1000 content with
  | .error e => .error e
  | .ok csl =>
    .ok (promptSeg1 ++ pyStr title ++ promptSeg2 ++ pyStr csl ++ promptSeg3
      ++ pyStr region ++ promptSeg4 ++ dumpsRows (subs.take 20)
      ++ promptSeg5 ++ dumpsRows (season.take 20) ++ promptSeg6)

/-- Response normalization with fallback (lines 133–161): clean, extract,
parse; on parse failure substitute the hardcoded fallback. -/
def normalizeModelOutput (raw : List Char) : JVal :=
  match loads (extractJson (cleanModelText raw)) with
  | some j => j
  | none => fallbackResult

/-- `request_json.get('title', '')` (line 56). -/
def reqTitle (fields : List (List Char × JVal)) : JVal :=
  (objGet fields (jstr "title")).getD (.str [])

/-- `request_json.get('content', '')` (line 57). -/
def reqContent (fields : List (List Char × JVal)) : JVal :=
  (objGet fields (jstr "content")).getD (.str [])

/-- `request_json.get('region', 'Australia')` (line 58). -/
def reqRegion (fields : List (List Char × JVal)) : JVal :=
  (objGet fields (jstr "region")).getD (.str (jstr "Australia"))

/-- The body of the `try:` block of `get_publishing_recommendation`
(lines 47–167).  `body` is `request.get_json(silent=True)` (`none` when the
request has no parseable JSON body); `subsRes`/`seasonRes` are the two
BigQuery queries' outcomes; `gen` maps the prompt to the model invocation's
outcome.  An `error` result is an exception reaching the outer handlers. -/
def recommendCore (body : Option JVal)
    (subsRes seasonRes : Except (List Char) (List Row))
    (gen : List Char → Except (List Char) (List Char)) :
    Except (List Char) HttpResp :=
  match body with
  | none => .ok ⟨400, .json (errBody msgNoJson), []⟩
  | some v =>
    if truthy v = false then .ok ⟨400, .json (errBody msgNoJson), []⟩
    else
      match v with
      | .obj fields =>
        let title := reqTitle fields
        let content := reqContent fields
        let region := reqRegion fields
        if truthy title = false ∨ truthy content = false then
          .ok ⟨400, .json (errBody msgTitleContent), []⟩
        else
          match subsRes with
          | .error e => .error e
          | .ok subs =>
            match seasonRes with
            | .error e => .error e
            | .ok season =>
              match buildPrompt title content region subs season with
              | .error e => .error e
              | .ok prompt =>
                match gen prompt with
                | .error e => .error e
                | .ok raw =>
                  .ok ⟨200, .json (successBody (normalizeModelOutput raw)), postHeaders⟩
      | _ => .error (attrGetErr v)

/-- The `/recommend` handler `get_publishing_recommendation`: the OPTIONS
preflight early return (lines 33–40), then the `try:` body; any exception
falls to the generic handler (lines 175–179) producing a 500 error body.
(The outer `except json.JSONDecodeError` at lines 169–173 is unreachable:
the only `json.loads` call is guarded by the inner fallback handler.) -/
def handle (method : Method) (body : Option JVal)
    (subsRes seasonRes : Except (List Char) (List Row))
    (gen : List Char → Except (List Char) (List Char)) : HttpResp :=
  match method with
  | .options => ⟨204, .empty, corsPreflightHeaders⟩
  | .post =>
    match recommendCore body subsRes seasonRes gen with
    | .ok r => r
    | .error e => ⟨500, .json (errBody e), postHeaders⟩

/-- Does a JSON value conform to the `RecommendationResult` shape: an
object with a string `description` and an `insights` array of strings? -/
def conformsSchema : JVal → Bool
  | .obj fs =>
    (match objGet fs (jstr "description") with
     | some (.str _) => true
     | _ => false)
    && (match objGet fs (jstr "insights") with
        | some (.arr xs) => xs.all (fun x => match x with | .str _ => true | _ => false)
        | _ => false)
  | _ => false

/-- The `data` field of a JSON response body, if any. -/
def dataOf (r : HttpResp) : Option JVal :=
  match r.body with
  | .json (.obj fs) => objGet fs (jstr "data")
  | _ => none

/-! ## Theorems -/

/-- Claim C9: for every OPTIONS request to `/recommend`, the response is
status 204 with an empty body and the headers granting unrestricted
cross-origin POST access with a 1-hour preflight cache; the response is
independent of the request body, the data store and the model, so no
validation, data retrieval or model invocation influences it. -/
theorem options_preflight_response :
    ∀ (body : Option JVal) (subsRes seasonRes : Except (List Char) (List Row))
      (gen : List Char → Except (List Char) (List Char)),
      handle .options body subsRes seasonRes gen
          = ⟨204, .empty, corsPreflightHeaders⟩
        ∧ (jstr "Access-Control-Allow-Origin", jstr "*") ∈ corsPreflightHeaders
        ∧ (jstr "Access-Control-Allow-Methods", jstr "POST, OPTIONS") ∈ corsPreflightHeaders
        ∧ (jstr "Access-Control-Allow-Headers", jstr "Content-Type") ∈ corsPreflightHeaders
        ∧ (jstr "Access-Control-Max-Age", jstr "3600") ∈ corsPreflightHeaders := by
  intro body subsRes seasonRes gen
  refine ⟨rfl, ?_, ?_, ?_, ?_⟩ <;> decide

/-- Claim C10: a request whose body has no parseable JSON, or parses to a
falsy value (empty object, empty array, `0`, `false`, `null`, empty
string), gets HTTP 400 with the message "No JSON data provided" — not the
missing-title/content message — regardless of everything else, so before
any field-level validation. -/
theorem falsy_body_no_json_400 :
    ∀ (body : Option JVal) (subsRes seasonRes : Except (List Char) (List Row))
      (gen : List Char → Except (List Char) (List Char)),
      (body = none ∨ ∃ v, body = some v ∧ truthy v = false) →
      handle .post body subsRes seasonRes gen
        = ⟨400, .json (errBody msgNoJson), []⟩ := by
  intro body subsRes seasonRes gen h
  rcases h with h | ⟨v, rfl, hv⟩
  · subst h; rfl
  · simp only [handle, recommendCore, hv, if_pos]

/-- Witness for C10 at the empty-object body. -/
theorem falsy_body_no_json_400_witness :
    handle .post (some (.obj [])) (.ok []) (.ok []) (fun _ => .ok [])
      = ⟨400, .json (errBody msgNoJson), []⟩ :=
  falsy_body_no_json_400 (some (.obj [])) (.ok []) (.ok []) (fun _ => .ok [])
    (Or.inr ⟨.obj [], rfl, rfl⟩)

/-- If the `title` field of a parsed object body is truthy, the body
itself is truthy (an empty dict has no `title`). -/
lemma truthy_obj_of_truthy_title {fields : List (List Char × JVal)}
    (h : truthy (reqTitle fields) = true) : truthy (JVal.obj fields) = true := by
  cases fields with
  | nil => exact absurd h (by decide)
  | cons f fs => rfl

/-- Claim C4, counterexample: two requests with a missing `title` do not
behave as claimed.  A body parsing to the JSON array `[1, 2]` (missing
both fields) yields HTTP 500 from the `AttributeError` of `.get`, not 400;
and a body parsing to the empty object yields 400 whose message is
"No JSON data provided", not a message naming the title/content field
category. -/
theorem missing_title_counterexample :
    handle .post (some (.arr [.num 1, .num 2])) (.ok []) (.ok []) (fun _ => .ok [])
        = ⟨500, .json (errBody (jstr "\x27list\x27 object has no attribute \x27get\x27")), postHeaders⟩
      ∧ handle .post (some (.obj [])) (.ok []) (.ok []) (fun _ => .ok [])
        = ⟨400, .json (errBody msgNoJson), []⟩
      ∧ msgNoJson ≠ msgTitleContent :=
  ⟨rfl, rfl, by decide⟩

/-- Claim C4, as amended: for every request whose body parses to a truthy
(non-empty) JSON object in which `title` is missing or falsy, or `content`
is missing or falsy, the endpoint returns HTTP 400 with body status
"error" and the single shared message "Title and content are required";
both fields are checked together in one combined condition, so the message
is the same whichever field is missing. -/
theorem missing_title_content_400 :
    ∀ (fields : List (List Char × JVal))
      (subsRes seasonRes : Except (List Char) (List Row))
      (gen : List Char → Except (List Char) (List Char)),
      truthy (.obj fields) = true →
      (truthy (reqTitle fields) = false ∨ truthy (reqContent fields) = false) →
      handle .post (some (.obj fields)) subsRes seasonRes gen
        = ⟨400, .json (errBody msgTitleContent), []⟩ := by
  intro fields subsRes seasonRes gen hobj hval
  unfold handle recommendCore
  simp only [hobj, Bool.true_eq_false, if_false]
  rw [if_pos hval]

/-- Witness for the amended C4 at a body carrying only a title. -/
theorem missing_title_content_400_witness :
    handle .post (some (.obj [(jstr "title", .str (jstr "t"))]))
        (.ok []) (.ok []) (fun _ => .ok [])
      = ⟨400, .json (errBody msgTitleContent), []⟩ :=
  missing_title_content_400 [(jstr "title", .str (jstr "t"))]
    (.ok []) (.ok []) (fun _ => .ok []) (by decide) (Or.inr (by decide))

/-- For a well-formed request (truthy title, non-empty string content),
with both queries succeeding and the model returning `raw`, the handler
answers 200 success carrying the normalized model output. -/
lemma handle_wellformed_success
    (fields : List (List Char × JVal)) (subs season : List Row) (raw : List Char)
    (htitle : truthy (reqTitle fields) = true)
    (hcontent : ∃ c : List Char, reqContent fields = .str c ∧ c ≠ []) :
    handle .post (some (.obj fields)) (.ok subs) (.ok season) (fun _ => .ok raw)
      = ⟨200, .json (successBody (normalizeModelOutput raw)), postHeaders⟩ := by
  obtain ⟨c, hc, hcne⟩ := hcontent
  have hobj := truthy_obj_of_truthy_title htitle
  have hct : truthy (reqContent fields) = true := by
    rw [hc]; simpa [truthy] using hcne
  unfold handle recommendCore
  simp only [hobj, Bool.true_eq_false, if_false]
  rw [if_neg (by simp [htitle, hct])]
  rw [hc]
  simp only [buildPrompt, pySlice1000]

/-- The `data` field of a success body is the carried result. -/
lemma dataOf_success (d : JVal) (st : Nat) (hs : List (List Char × List Char)) :
    dataOf ⟨st, .json (successBody d), hs⟩ = some d := rfl

/-- Claim C2: whenever the cleaned/extracted model text is not parseable
as JSON, the endpoint substitutes the fixed hardcoded fallback object as
the result and still answers HTTP 200 with body status "success" — the
parse failure is never surfaced as an error to the caller. -/
theorem parse_failure_fallback_200 :
    ∀ (fields : List (List Char × JVal)) (subs season : List Row) (raw : List Char),
      truthy (reqTitle fields) = true →
      (∃ c : List Char, reqContent fields = .str c ∧ c ≠ []) →
      loads (extractJson (cleanModelText raw)) = none →
      handle .post (some (.obj fields)) (.ok subs) (.ok season) (fun _ => .ok raw)
        = ⟨200, .json (successBody fallbackResult), postHeaders⟩ := by
  intro fields subs season raw htitle hcontent hparse
  rw [handle_wellformed_success fields subs season raw htitle hcontent]
  unfold normalizeModelOutput
  rw [hparse]

/-- Witness for C2 at the unparseable raw text `not json at all`. -/
theorem parse_failure_fallback_200_witness :
    handle .post (some (.obj [(jstr "title", .str (jstr "t")),
                              (jstr "content", .str (jstr "c"))]))
        (.ok []) (.ok []) (fun _ => .ok (jstr "not json at all"))
      = ⟨200, .json (successBody fallbackResult), postHeaders⟩ :=
  parse_failure_fallback_200 _ [] [] _ (by decide) ⟨jstr "c", rfl, by decide⟩ rfl

/-- Claim C1, counterexample: for a well-formed request, a model raw text
that parses as JSON but has the wrong shape (here `\x7b"a":1\x7d`) is passed
through as the `data` field verbatim, with no `description` and no
`insights`, so the claimed schema guarantee fails for that raw text. -/
theorem schema_conformance_counterexample :
    handle .post (some (.obj [(jstr "title", .str (jstr "t")),
                              (jstr "content", .str (jstr "c"))]))
        (.ok []) (.ok []) (fun _ => .ok (jstr "\x7b\"a\":1\x7d"))
      = ⟨200, .json (successBody (.obj [(jstr "a", .num 1)])), postHeaders⟩
    ∧ conformsSchema (.obj [(jstr "a", .num 1)]) = false :=
  ⟨rfl, rfl⟩

/-- Claim C1, as amended: for every well-formed request the 200 response
always carries a `data` field; that field conforms to the
description/insights schema whenever the cleaned/extracted raw text is not
parseable as JSON (the fallback is substituted), while a parseable raw
text is passed through verbatim with no schema re-validation. -/
theorem schema_conformance_amended :
    ∀ (fields : List (List Char × JVal)) (subs season : List Row) (raw : List Char),
      truthy (reqTitle fields) = true →
      (∃ c : List Char, reqContent fields = .str c ∧ c ≠ []) →
      ∃ d, dataOf (handle .post (some (.obj fields)) (.ok subs) (.ok season)
              (fun _ => .ok raw)) = some d
        ∧ (loads (extractJson (cleanModelText raw)) = none →
            d = fallbackResult ∧ conformsSchema d = true)
        ∧ ∀ j, loads (extractJson (cleanModelText raw)) = some j → d = j := by
  intro fields subs season raw htitle hcontent
  refine ⟨normalizeModelOutput raw, ?_, ?_, ?_⟩
  · rw [handle_wellformed_success fields subs season raw htitle hcontent]
    exact dataOf_success _ _ _
  · intro hp
    unfold normalizeModelOutput
    rw [hp]
    exact ⟨rfl, rfl⟩
  · intro j hj
    unfold normalizeModelOutput
    rw [hj]

/-- Witness for the amended C1 at a concrete well-formed request. -/
theorem schema_conformance_amended_witness :
    ∃ d, dataOf (handle .post (some (.obj [(jstr "title", .str (jstr "t")),
                                           (jstr "content", .str (jstr "c"))]))
            (.ok []) (.ok []) (fun _ => .ok (jstr "not json at all"))) = some d
      ∧ (loads (extractJson (cleanModelText (jstr "not json at all"))) = none →
          d = fallbackResult ∧ conformsSchema d = true)
      ∧ ∀ j, loads (extractJson (cleanModelText (jstr "not json at all"))) = some j → d = j :=
  schema_conformance_amended _ [] [] _ (by decide) ⟨jstr "c", rfl, by decide⟩

/-- Exhaustive shape analysis of the `try:` block's outcome: a 400
validation error body, a 200 success body, or an exception. -/
lemma recommendCore_cases (body : Option JVal)
    (subsRes seasonRes : Except (List Char) (List Row))
    (gen : List Char → Except (List Char) (List Char)) :
    (∃ m, recommendCore body subsRes seasonRes gen
        = .ok ⟨400, .json (errBody m), []⟩)
    ∨ (∃ d, recommendCore body subsRes seasonRes gen
        = .ok ⟨200, .json (successBody d), postHeaders⟩)
    ∨ (∃ e, recommendCore body subsRes seasonRes gen = .error e) := by
  rcases body with _ | v
  · exact Or.inl ⟨msgNoJson, rfl⟩
  · by_cases hv : truthy v = false
    · refine Or.inl ⟨msgNoJson, ?_⟩
      simp only [recommendCore, hv, if_true]
    · have hv' : truthy v = true := by revert hv; cases truthy v <;> simp
      cases v with
      | null => exact absurd rfl hv
      | bool b =>
        cases b with
        | false => exact absurd rfl hv
        | true =>
          refine Or.inr (Or.inr ⟨attrGetErr (.bool true), ?_⟩)
          simp only [recommendCore]
          rw [if_neg hv]
      | num n =>
        refine Or.inr (Or.inr ⟨attrGetErr (.num n), ?_⟩)
        simp only [recommendCore]
        rw [if_neg hv]
      | str s =>
        refine Or.inr (Or.inr ⟨attrGetErr (.str s), ?_⟩)
        simp only [recommendCore]
        rw [if_neg hv]
      | arr xs =>
        refine Or.inr (Or.inr ⟨attrGetErr (.arr xs), ?_⟩)
        simp only [recommendCore]
        rw [if_neg hv]
      | obj fields =>
        by_cases hval : truthy (reqTitle fields) = false
            ∨ truthy (reqContent fields) = false
        · refine Or.inl ⟨msgTitleContent, ?_⟩
          simp only [recommendCore, hv', Bool.true_eq_false, if_false]
          rw [if_pos hval]
        · rcases subsRes with e | subs
          · refine Or.inr (Or.inr ⟨e, ?_⟩)
            simp only [recommendCore, hv', Bool.true_eq_false, if_false]
            rw [if_neg hval]
          · rcases seasonRes with e | season
            · refine Or.inr (Or.inr ⟨e, ?_⟩)
              simp only [recommendCore, hv', Bool.true_eq_false, if_false]
              rw [if_neg hval]
            · rcases hbp : buildPrompt (reqTitle fields) (reqContent fields)
                  (reqRegion fields) subs season with e | prompt
              · refine Or.inr (Or.inr ⟨e, ?_⟩)
                simp only [recommendCore, hv', Bool.true_eq_false, if_false]
                rw [if_neg hval, hbp]
              · rcases hg : gen prompt with e | raw
                · refine Or.inr (Or.inr ⟨e, ?_⟩)
                  simp only [recommendCore, hv', Bool.true_eq_false, if_false]
                  rw [if_neg hval, hbp]
                  simp only [hg]
                · refine Or.inr (Or.inl ⟨normalizeModelOutput raw, ?_⟩)
                  simp only [recommendCore, hv', Bool.true_eq_false, if_false]
                  rw [if_neg hval, hbp]
                  simp only [hg]

/-- Claim C3, counterexample: a parse failure of the model output does NOT
yield HTTP 500 — for the unparseable raw text `not json at all` the
response status is 200 (the fallback path). -/
theorem error_mapping_counterexample :
    loads (extractJson (cleanModelText (jstr "not json at all"))) = none
    ∧ (handle .post (some (.obj [(jstr "title", .str (jstr "t")),
                                 (jstr "content", .str (jstr "c"))]))
          (.ok []) (.ok []) (fun _ => .ok (jstr "not json at all"))).status = 200
    ∧ (200 : Nat) ≠ 500 :=
  ⟨rfl, rfl, by decide⟩

/-- Claim C3, as amended: a data-store failure (either query) and a
model-invocation failure each yield HTTP 500 with the exception's message;
a model-output parse failure is instead recovered as HTTP 200 with the
fallback; and every error response (status 400 or 500) has a body of the
shape `\x7bstatus: "error", message: string\x7d`. -/
theorem error_mapping_amended :
    (∀ (e : List Char) (fields : List (List Char × JVal))
       (seasonRes : Except (List Char) (List Row))
       (gen : List Char → Except (List Char) (List Char)),
       truthy (reqTitle fields) = true → truthy (reqContent fields) = true →
       handle .post (some (.obj fields)) (.error e) seasonRes gen
         = ⟨500, .json (errBody e), postHeaders⟩)
    ∧ (∀ (e : List Char) (fields : List (List Char × JVal)) (subs : List Row)
         (gen : List Char → Except (List Char) (List Char)),
       truthy (reqTitle fields) = true → truthy (reqContent fields) = true →
       handle .post (some (.obj fields)) (.ok subs) (.error e) gen
         = ⟨500, .json (errBody e), postHeaders⟩)
    ∧ (∀ (e : List Char) (fields : List (List Char × JVal)) (subs season : List Row),
       truthy (reqTitle fields) = true →
       (∃ c : List Char, reqContent fields = .str c ∧ c ≠ []) →
       handle .post (some (.obj fields)) (.ok subs) (.ok season) (fun _ => .error e)
         = ⟨500, .json (errBody e), postHeaders⟩)
    ∧ (∀ (method : Method) (body : Option JVal)
         (subsRes seasonRes : Except (List Char) (List Row))
         (gen : List Char → Except (List Char) (List Char)),
       ((handle method body subsRes seasonRes gen).status = 400
         ∨ (handle method body subsRes seasonRes gen).status = 500) →
       ∃ m, (handle method body subsRes seasonRes gen).body = .json (errBody m)) := by
  refine ⟨?_, ?_, ?_, ?_⟩
  · intro e fields seasonRes gen ht hc
    have hval : ¬(truthy (reqTitle fields) = false
        ∨ truthy (reqContent fields) = false) := by simp [ht, hc]
    unfold handle recommendCore
    simp only [truthy_obj_of_truthy_title ht, Bool.true_eq_false, if_false]
    rw [if_neg hval]
  · intro e fields subs gen ht hc
    have hval : ¬(truthy (reqTitle fields) = false
        ∨ truthy (reqContent fields) = false) := by simp [ht, hc]
    unfold handle recommendCore
    simp only [truthy_obj_of_truthy_title ht, Bool.true_eq_false, if_false]
    rw [if_neg hval]
  · intro e fields subs season ht hcontent
    obtain ⟨c, hc, hcne⟩ := hcontent
    have hct : truthy (reqContent fields) = true := by
      rw [hc]; simpa [truthy] using hcne
    have hval : ¬(truthy (reqTitle fields) = false
        ∨ truthy (reqContent fields) = false) := by simp [ht, hct]
    unfold handle recommendCore
    simp only [truthy_obj_of_truthy_title ht, Bool.true_eq_false, if_false]
    rw [if_neg hval, hc]
    simp only [buildPrompt, pySlice1000]
  · intro method body subsRes seasonRes gen hst
    cases method with
    | options =>
      exfalso
      rcases hst with h | h <;> simp [handle] at h
    | post =>
      rcases recommendCore_cases body subsRes seasonRes gen with
        ⟨m, hm⟩ | ⟨d, hd⟩ | ⟨e, he⟩
      · exact ⟨m, by simp [handle, hm]⟩
      · exfalso
        rcases hst with h | h <;> simp [handle, hd] at h
      · exact ⟨e, by simp [handle, he]⟩

/-- Witness for the amended C3 at a failing subscription query. -/
theorem error_mapping_amended_witness :
    handle .post (some (.obj [(jstr "title", .str (jstr "t")),
                              (jstr "content", .str (jstr "c"))]))
        (.error (jstr "bigquery down")) (.ok []) (fun _ => .ok [])
      = ⟨500, .json (errBody (jstr "bigquery down")), postHeaders⟩ :=
  error_mapping_amended.1 (jstr "bigquery down") _ (.ok []) _
    (by decide) (by decide)

lemma pstrip_cons_space {a : Char} (s : List Char) (ha : isPySpace a = true) :
    pstrip (a :: s) = pstrip s := by
  unfold pstrip
  rw [List.dropWhile_cons, if_pos (by simp [ha])]

lemma pstrip_append_space {a : Char} (s : List Char) (ha : isPySpace a = true) :
    pstrip (s ++ [a]) = pstrip s := by
  induction s with
  | nil => simp [pstrip, List.dropWhile_cons, ha]
  | cons c cs ih =>
    by_cases hc : isPySpace c = true
    · rw [List.cons_append, pstrip_cons_space _ hc, ih, pstrip_cons_space _ hc]
    · have hc' : isPySpace c = false := by revert hc; cases isPySpace c <;> simp
      unfold pstrip
      simp only [List.cons_append, List.dropWhile_cons, hc', Bool.false_eq_true, if_false]
      have h1 : (c :: (cs ++ [a])).reverse = a :: (c :: cs).reverse := by simp
      rw [h1, List.dropWhile_cons, if_pos (by simp [ha])]

lemma pstrip_eq_self_of_ends (c d : Char) (mid : List Char)
    (hc : isPySpace c = false) (hd : isPySpace d = false) :
    pstrip (c :: (mid ++ [d])) = c :: (mid ++ [d]) := by
  unfold pstrip
  rw [List.dropWhile_cons, if_neg (by simp [hc])]
  have hrev : (c :: (mid ++ [d])).reverse = d :: (mid.reverse ++ [c]) := by simp
  rw [hrev, List.dropWhile_cons, if_neg (by simp [hd])]
  simp

lemma mem_of_mem_pstrip {c : Char} {s : List Char} (h : c ∈ pstrip s) : c ∈ s := by
  unfold pstrip at h
  rw [List.mem_reverse] at h
  have h2 : c ∈ (s.dropWhile isPySpace).reverse :=
    (List.dropWhile_sublist _).subset h
  rw [List.mem_reverse] at h2
  exact (List.dropWhile_sublist _).subset h2

lemma fence_isSuffixOf_eq_false {t : List Char} (h : btick ∉ t) :
    fence.isSuffixOf t = false := by
  rw [Bool.eq_false_iff]
  intro hs
  rw [List.isSuffixOf_iff_suffix] at hs
  obtain ⟨u, hu⟩ := hs
  apply h
  rw [← hu]
  simp [fence]

lemma takeUntilFence_append_fence (xs : List Char) (h : btick ∉ xs) :
    takeUntilFence (xs ++ fence) = xs := by
  induction xs with
  | nil => rfl
  | cons c cs ih =>
    have hcb : c ≠ btick := fun h' => h (by simp [h'])
    have hcs : btick ∉ cs := fun h' => h (List.mem_cons_of_mem _ h')
    rw [List.cons_append]
    simp only [takeUntilFence]
    rw [if_neg (by simp [fence, List.isPrefixOf_iff_prefix, List.cons_prefix_cons, hcb]; intro h'; exact absurd h'.symm hcb)]
    rw [ih hcs]

/-- Round-trip through the cleaning step: wrapping any backtick-free body
in a ```json ...``` code fence recovers the trimmed body. -/
lemma cleanModelText_fenced (body : List Char) (hb : btick ∉ body) :
    cleanModelText (jstr "```json\n" ++ body ++ jstr "\n```") = pstrip body := by
  have e1 : jstr "```json\n" = [btick, btick, btick, 'j', 's', 'o', 'n', '\n'] := rfl
  have e2 : jstr "\n```" = ['\n', btick, btick, btick] := rfl
  have hshape : jstr "```json\n" ++ body ++ jstr "\n```"
      = btick :: (([btick, btick, 'j', 's', 'o', 'n', '\n'] ++ (body ++ ['\n', btick, btick])) ++ [btick]) := by
    rw [e1, e2]; simp
  rw [hshape]
  simp only [cleanModelText]
  rw [pstrip_eq_self_of_ends btick btick _ (by decide) (by decide)]
  have hpre : fence.isPrefixOf (btick :: (([btick, btick, 'j', 's', 'o', 'n', '\n'] ++ (body ++ ['\n', btick, btick])) ++ [btick])) = true := by
    have : fence <+: (btick :: (([btick, btick, 'j', 's', 'o', 'n', '\n'] ++ (body ++ ['\n', btick, btick])) ++ [btick])) :=
      ⟨(['j', 's', 'o', 'n', '\n'] ++ (body ++ ['\n', btick, btick])) ++ [btick], by simp [fence]⟩
    simpa using this
  rw [if_pos hpre]
  have hdrop : List.drop 3 (btick :: ([btick, btick, 'j', 's', 'o', 'n', '\n'] ++ (body ++ ['\n', btick, btick]) ++ [btick]))
      = 'j' :: 's' :: 'o' :: 'n' :: '\n' :: (body ++ ['\n', btick, btick, btick]) := by
    simp
  rw [hdrop]
  have htuf : takeUntilFence ('j' :: 's' :: 'o' :: 'n' :: '\n' :: (body ++ ['\n', btick, btick, btick]))
      = 'j' :: 's' :: 'o' :: 'n' :: '\n' :: (body ++ ['\n']) := by
    have hx : ('j' :: 's' :: 'o' :: 'n' :: '\n' :: (body ++ ['\n', btick, btick, btick]))
        = ('j' :: 's' :: 'o' :: 'n' :: '\n' :: (body ++ ['\n'])) ++ fence := by
      simp [fence]
    rw [hx, takeUntilFence_append_fence]
    intro hmem
    simp only [List.mem_cons, List.mem_append, List.mem_singleton] at hmem
    rcases hmem with h | h | h | h | h | h | h <;>
      first | exact hb h | exact absurd h (by decide)
  rw [htuf]
  have hjson : (jstr "json").isPrefixOf ('j' :: 's' :: 'o' :: 'n' :: '\n' :: (body ++ ['\n'])) = true := by
    have hp : jstr "json" <+: ('j' :: 's' :: 'o' :: 'n' :: '\n' :: (body ++ ['\n'])) :=
      ⟨'\n' :: (body ++ ['\n']), rfl⟩
    simpa using hp
  rw [if_pos hjson]
  have hdrop4 : List.drop 4 ('j' :: 's' :: 'o' :: 'n' :: '\n' :: (body ++ ['\n']))
      = '\n' :: (body ++ ['\n']) := rfl
  rw [hdrop4, pstrip_cons_space _ (by decide), pstrip_append_space _ (by decide)]
  have hnb : btick ∉ pstrip body := fun h => hb (mem_of_mem_pstrip h)
  rw [fence_isSuffixOf_eq_false hnb]
  simp only [Bool.false_eq_true, if_false]


/-- Claim C5: a trimmed model output opening with a code-fence marker has
the fence and the optional `json` language tag stripped and the trailing
fence stripped (for every backtick-free body, cleaning the fenced text
yields the trimmed body); in particular the fenced example parses to
`\x7b"description":"x","insights":[]\x7d`. -/
theorem fence_stripping :
    (∀ body : List Char, btick ∉ body →
        cleanModelText (jstr "```json\n" ++ body ++ jstr "\n```") = pstrip body)
    ∧ normalizeModelOutput (jstr "```json\n\x7b\"description\":\"x\",\"insights\":[]\x7d\n```")
        = .obj [(jstr "description", .str (jstr "x")), (jstr "insights", .arr [])] :=
  ⟨cleanModelText_fenced, rfl⟩

/-- Witness for C5 at a concrete backtick-free body. -/
theorem fence_stripping_witness :
    cleanModelText (jstr "```json\n" ++ jstr "\x7b\"x\":1\x7d" ++ jstr "\n```")
      = pstrip (jstr "\x7b\"x\":1\x7d") :=
  fence_stripping.1 (jstr "\x7b\"x\":1\x7d") (by decide)

/-- `findIdx` skips a block in which no element satisfies the test. -/
lemma findIdx_append_of_not (p : Char → Bool) (l₁ l₂ : List Char)
    (h : ∀ c ∈ l₁, p c = false) :
    (l₁ ++ l₂).findIdx p = l₁.length + l₂.findIdx p := by
  induction l₁ with
  | nil => simp
  | cons c cs ih =>
    rw [List.cons_append, List.findIdx_cons, h c (List.mem_cons_self _ _)]
    simp only [cond_false]
    rw [ih (fun x hx => h x (List.mem_cons_of_mem _ hx))]
    simp [List.length_cons]
    omega

lemma extractJson_pre_mid_post (pre mid post : List Char)
    (hpre : obrace ∉ pre) (hpost : cbrace ∉ post)
    (hhead : mid.head? = some obrace) (hlast : mid.getLast? = some cbrace) :
    extractJson (pre ++ mid ++ post) = mid := by
  obtain ⟨ys, rfl⟩ := List.getLast?_eq_some_iff.mp hlast
  cases ys with
  | nil => exact absurd (by simpa using hhead) (by decide)
  | cons y0 ytail =>
  have hy0 : y0 = obrace := by simpa using hhead
  subst hy0
  have hmemo : obrace ∈ pre ++ ((obrace :: ytail) ++ [cbrace]) ++ post := by simp
  have hmemc : cbrace ∈ pre ++ ((obrace :: ytail) ++ [cbrace]) ++ post := by simp
  simp only [extractJson]
  rw [if_pos ⟨hmemo, hmemc⟩]
  have hfind1 : List.findIdx (fun c => decide (c = obrace)) (pre ++ (obrace :: ytail ++ [cbrace]) ++ post) = pre.length := by
    rw [List.append_assoc,
        findIdx_append_of_not _ _ _
          (fun c hc => by simp only [decide_eq_false_iff_not]; exact fun h => hpre (h ▸ hc))]
    simp [List.cons_append, List.findIdx_cons]
  have hrev : (pre ++ (obrace :: ytail ++ [cbrace]) ++ post).reverse
      = post.reverse ++ (cbrace :: (ytail.reverse ++ (obrace :: pre.reverse))) := by
    simp
  have hfind2 : List.findIdx (fun c => decide (c = cbrace)) (pre ++ (obrace :: ytail ++ [cbrace]) ++ post).reverse = post.length := by
    rw [hrev, findIdx_append_of_not _ _ _
          (fun c hc => by simp only [decide_eq_false_iff_not]; exact fun h => hpost (h ▸ (List.mem_reverse.mp hc)))]
    simp [List.findIdx_cons]
  rw [hfind1, hfind2]
  have hlen : (pre ++ (obrace :: ytail ++ [cbrace]) ++ post).length
      = pre.length + (ytail.length + 2) + post.length := by
    simp only [List.length_append, List.length_cons, List.length_nil]
  rw [hlen]
  have hamt : pre.length + (ytail.length + 2) + post.length - 1 - post.length + 1 - pre.length
      = ytail.length + 2 := by omega
  rw [hamt]
  rw [List.append_assoc, List.drop_left]
  exact List.take_left' (by simp only [List.length_cons, List.length_append, List.length_nil])

/-- Claim C6: after fence stripping, when the text contains both braces,
the substring from the first `\x7b` to the last `\x7d` inclusive is the
extraction result, discarding any surrounding prose: for prose `pre`
containing no `\x7b` and `post` containing no `\x7d` around a candidate
`mid` that opens with `\x7b` and closes with `\x7d`, extraction yields
exactly `mid`; in particular the claim's example extracts
`\x7b"description":"x","insights":["a"]\x7d`. -/
theorem brace_extraction :
    (∀ pre mid post : List Char,
        obrace ∉ pre → cbrace ∉ post →
        mid.head? = some obrace → mid.getLast? = some cbrace →
        extractJson (pre ++ mid ++ post) = mid)
    ∧ extractJson (jstr "Here is the result: \x7b\"description\":\"x\",\"insights\":[\"a\"]\x7d Hope this helps!")
        = jstr "\x7b\"description\":\"x\",\"insights\":[\"a\"]\x7d" :=
  ⟨extractJson_pre_mid_post, by decide⟩

/-- Witness for C6 at concrete prose around a candidate. -/
theorem brace_extraction_witness :
    extractJson (jstr "ab" ++ jstr "\x7bc\x7d" ++ jstr "de") = jstr "\x7bc\x7d" :=
  brace_extraction.1 (jstr "ab") (jstr "\x7bc\x7d") (jstr "de")
    (by decide) (by decide) (by decide) (by decide)

/-- Claim C7: only the first 1000 characters of a string content enter the
constructed prompt — prompts agree whenever contents agree on their first
1000 characters — while the title and the region are embedded whole
(each appears untruncated as a contiguous segment of the prompt). -/
theorem content_truncation :
    ∀ (title region : JVal) (c c' : List Char) (subs season : List Row),
      c.take 1000 = c'.take 1000 →
      buildPrompt title (.str c) region subs season
          = buildPrompt title (.str c') region subs season
        ∧ (∃ u v, buildPrompt title (.str c) region subs season
            = .ok (u ++ pyStr title ++ v))
        ∧ (∃ u v, buildPrompt title (.str c) region subs season
            = .ok (u ++ pyStr region ++ v)) := by
  intro title region c c' subs season h
  refine ⟨?_, ?_, ?_⟩
  · simp only [buildPrompt, pySlice1000, pyStr]
    rw [h]
  · refine ⟨promptSeg1,
      promptSeg2 ++ c.take 1000 ++ promptSeg3 ++ pyStr region ++ promptSeg4
        ++ dumpsRows (subs.take 20) ++ promptSeg5 ++ dumpsRows (season.take 20)
        ++ promptSeg6, ?_⟩
    simp [buildPrompt, pySlice1000, pyStr, List.append_assoc]
  · refine ⟨promptSeg1 ++ pyStr title ++ promptSeg2 ++ c.take 1000 ++ promptSeg3,
      promptSeg4 ++ dumpsRows (subs.take 20) ++ promptSeg5
        ++ dumpsRows (season.take 20) ++ promptSeg6, ?_⟩
    simp [buildPrompt, pySlice1000, pyStr, List.append_assoc]

/-- Claim C8: at most the first 20 rows of each reference result set, in
the order the store returned them, are serialized into the prompt: prompts
agree whenever the result sets agree on their first 20 rows, and the
serialization of exactly the first 20 rows of each set appears as a
contiguous segment of the prompt. -/
theorem dataset_truncation :
    ∀ (title region content : JVal) (c : List Char) (s1 s2 s1' s2' : List Row),
      s1.take 20 = s1'.take 20 → s2.take 20 = s2'.take 20 →
      buildPrompt title content region s1 s2 = buildPrompt title content region s1' s2'
        ∧ (∃ u v, buildPrompt title (.str c) region s1 s2
            = .ok (u ++ dumpsRows (s1.take 20) ++ v))
        ∧ (∃ u v, buildPrompt title (.str c) region s1 s2
            = .ok (u ++ dumpsRows (s2.take 20) ++ v)) := by
  intro title region content c s1 s2 s1' s2' h1 h2
  refine ⟨?_, ?_, ?_⟩
  · rcases hsl : pySlice1000 content with e | w
    · simp [buildPrompt, hsl]
    · simp [buildPrompt, hsl, h1, h2]
  · refine ⟨promptSeg1 ++ pyStr title ++ promptSeg2 ++ c.take 1000 ++ promptSeg3
        ++ pyStr region ++ promptSeg4,
      promptSeg5 ++ dumpsRows (s2.take 20) ++ promptSeg6, ?_⟩
    simp [buildPrompt, pySlice1000, pyStr, List.append_assoc]
  · refine ⟨promptSeg1 ++ pyStr title ++ promptSeg2 ++ c.take 1000 ++ promptSeg3
        ++ pyStr region ++ promptSeg4 ++ dumpsRows (s1.take 20) ++ promptSeg5,
      promptSeg6, ?_⟩
    simp [buildPrompt, pySlice1000, pyStr, List.append_assoc]

/-- Witness for C7: a 1001-character content and a different one sharing
its first 1000 characters produce the same prompt. -/
theorem content_truncation_witness :
    buildPrompt (.str (jstr "T")) (.str (List.replicate 1001 'a')) (.str (jstr "R")) [] []
      = buildPrompt (.str (jstr "T")) (.str (List.replicate 1000 'a' ++ ['b'])) (.str (jstr "R")) [] [] :=
  (content_truncation (.str (jstr "T")) (.str (jstr "R")) _ _ [] []
    (by rw [List.take_replicate, List.take_left' (List.length_replicate ..),
            show min 1000 1001 = 1000 from by omega])).1

/-- Witness for C8: a 21-row result set and a different one sharing its
first 20 rows produce the same prompt. -/
theorem dataset_truncation_witness :
    buildPrompt (.str (jstr "T")) (.str (jstr "c")) (.str (jstr "R"))
        (List.replicate 21 [(jstr "k", JVal.num 1)]) []
      = buildPrompt (.str (jstr "T")) (.str (jstr "c")) (.str (jstr "R"))
        (List.replicate 20 [(jstr "k", JVal.num 1)] ++ [[(jstr "k", JVal.num 2)]]) [] :=
  (dataset_truncation _ _ _ (jstr "c") _ _ _ _
    (by rw [List.take_replicate, List.take_left' (List.length_replicate ..),
            show min 20 21 = 20 from by omega]) rfl).1

end SeasonRec
